import Mathlib

/-!
Verification of the gas price list, step-cost ladder, CID reading and AMT
diff components of the ref-fvm repository, as a shallow embedding in Lean.

Machine integers are modelled as Nat with explicit saturation at the
unsigned 64-bit maximum where the source saturates.
-/

namespace RefFvm

/-- The maximum value of an unsigned 64-bit integer. -/
def U64MAX : Nat := 2 ^ 64 - 1

/-- Saturating unsigned 64-bit addition, as used by the u64 saturating
arithmetic in the source. -/
def u64SatAdd (a b : Nat) : Nat := min (a + b) U64MAX

/-- Saturating unsigned 64-bit multiplication. -/
def u64SatMul (a b : Nat) : Nat := min (a * b) U64MAX

/-- Modelled from the spec: the Gas quantity type from the gas module, which is
not under src. Per section 4.1 a Gas value stores milligas as an unsigned
64-bit integer; addition and subtraction saturate at 0 and max, multiplication
by a non-negative integer saturates at max, and 1 gas = 1000 milligas. -/
structure Gas where
  milligas : Nat
deriving DecidableEq, Repr

/-- Gas from whole gas units (milligas = units times 1000, saturating). -/
def Gas.new (g : Nat) : Gas := ⟨min (g * 1000) U64MAX⟩

/-- Gas directly from milligas (saturating). -/
def Gas.from_milligas (m : Nat) : Gas := ⟨min m U64MAX⟩

/-- The zero gas value. -/
def Gas.zero : Gas := ⟨0⟩

/-- Saturating gas addition. -/
def Gas.add (a b : Gas) : Gas := ⟨min (a.milligas + b.milligas) U64MAX⟩

/-- Saturating gas subtraction (Nat subtraction already saturates at 0). -/
def Gas.sub (a b : Gas) : Gas := ⟨a.milligas - b.milligas⟩

/-- Saturating multiplication of gas by a non-negative integer. -/
def Gas.mul (a : Gas) (n : Nat) : Gas := ⟨min (a.milligas * n) U64MAX⟩

/-- Maximum of two gas values. -/
def Gas.max (a b : Gas) : Gas := ⟨Nat.max a.milligas b.milligas⟩

instance : Add Gas := ⟨Gas.add⟩

instance : Sub Gas := ⟨Gas.sub⟩

instance : HMul Gas Nat Gas := ⟨Gas.mul⟩

/-- Modelled from the spec: a GasCharge from the gas module, which is not under
src. Per the data model it is a triple of a diagnostic-only name, compute gas
and other gas; the name does not participate in consensus and is omitted here.
-/
structure GasCharge where
  compute_gas : Gas
  other_gas : Gas
deriving DecidableEq, Repr

/-- Constructor mirroring GasCharge::new, with the diagnostic name dropped. -/
def GasCharge.new (compute other : Gas) : GasCharge := ⟨compute, other⟩

/-- Modelled from the spec: total = compute + other (saturating). -/
def GasCharge.total (gc : GasCharge) : Gas := gc.compute_gas + gc.other_gas

/-- A flat plus scaled cost pair, from price_list.rs. -/
structure ScalingCost where
  flat : Gas
  scale : Gas
deriving DecidableEq, Repr

/-- Computes the scaled cost for the given value, or saturates. -/
def ScalingCost.apply (c : ScalingCost) (value : Nat) : Gas :=
  c.flat + c.scale * value

/-- A new fixed cost (no scaling component). -/
def ScalingCost.fixed (g : Gas) : ScalingCost := ⟨g, Gas.zero⟩

/-- A zero scaling cost. -/
def ScalingCost.zero : ScalingCost := ⟨Gas.zero, Gas.zero⟩

/-- One step of a step-cost ladder, from price_list.rs. -/
structure Step where
  start : Nat
  cost : Gas
deriving DecidableEq, Repr

/-- A step-cost ladder, from price_list.rs. -/
structure StepCost where
  steps : List Step
deriving DecidableEq, Repr

/-- StepCost::lookup from price_list.rs: walk the ladder from the end and
return the cost of the first step whose start is at or before the target,
or zero when none is. -/
def StepCost.lookup (sc : StepCost) (x : Nat) : Gas :=
  (((sc.steps.reverse).find? (fun s => decide (s.start ≤ x))).map Step.cost).getD
    Gas.zero

/-- Modelled from the spec: the signature type enumeration from the shared
types crate, which is not under src; the variants are the two keys of the
signature cost table. -/
inductive SignatureType where
  | Secp256k1
  | BLS
deriving DecidableEq, BEq, Repr

/-- Modelled from the spec: the supported hash algorithm enumeration from the
kernel, which is not under src; the variants are the five keys of the hashing
cost table. -/
inductive SupportedHashes where
  | Sha2_256
  | Blake2b256
  | Blake2b512
  | Keccak256
  | Ripemd160
deriving DecidableEq, BEq, Repr

/-- Modelled from the spec: the registered seal proof enumeration from the
shared types crate, which is not under src. The first five variants do not
appear in any aggregate-seal table and exercise the documented fallback to the
32 GiB V1 entry. -/
inductive RegisteredSealProof where
  | StackedDRG2KiBV1
  | StackedDRG8MiBV1
  | StackedDRG512MiBV1
  | StackedDRG2KiBV1P1
  | StackedDRG512MiBV1P1
  | StackedDRG32GiBV1P1
  | StackedDRG64GiBV1P1
  | StackedDRG32GiBV1P2_Feat_NiPoRep
  | StackedDRG64GiBV1P2_Feat_NiPoRep
deriving DecidableEq, BEq, Repr

/-- Modelled from the spec: the registered window PoSt proof enumeration from
the shared types crate, which is not under src. The first two variants do not
appear in the PoSt table and exercise the documented fallback to the 512 MiB
V1 entry. -/
inductive RegisteredPoStProof where
  | StackedDRGWindow2KiBV1P1
  | StackedDRGWindow8MiBV1P1
  | StackedDRGWindow512MiBV1P1
  | StackedDRGWindow32GiBV1P1
  | StackedDRGWindow64GiBV1P1
deriving DecidableEq, BEq, Repr

/-- Rules for execution gas, from price_list.rs (the per-instruction cost
table over the bytecode operator enumeration is outside the claims and is not
embedded). -/
structure WasmGasPrices where
  instruction_default : Gas
  math_default : Gas
  jump_unconditional : Gas
  jump_conditional : Gas
  jump_indirect : Gas
  call : Gas
  memory_fill_base_cost : Gas
  memory_fill_per_byte_cost : Gas
  memory_access_cost : Gas
  memory_copy_per_byte_cost : Gas
  host_call_cost : Gas
deriving DecidableEq, Repr

/-- The price list record from price_list.rs. The Rust HashMap tables keyed by
proof type are embedded as association lists; the hashing and signature tables
are built with the total_enum_map macro, which guarantees totality over the
enum, so they are embedded as total functions. -/
structure PriceList where
  on_chain_message_compute : ScalingCost
  on_chain_message_storage : ScalingCost
  on_chain_return_compute : ScalingCost
  on_chain_return_storage : ScalingCost
  send_transfer_funds : Gas
  send_invoke_method : Gas
  address_lookup : Gas
  address_assignment : Gas
  actor_lookup : Gas
  actor_update : Gas
  actor_create_storage : Gas
  sig_cost : SignatureType → ScalingCost
  secp256k1_recover_cost : Gas
  bls_pairing_cost : Gas
  bls_hashing_cost : ScalingCost
  hashing_cost : SupportedHashes → ScalingCost
  lookback_cost : ScalingCost
  compute_unsealed_sector_cid_base : Gas
  verify_seal_base : Gas
  verify_aggregate_seal_per : List (RegisteredSealProof × Gas)
  verify_aggregate_seal_steps : List (RegisteredSealProof × StepCost)
  verify_post_lookup : List (RegisteredPoStProof × ScalingCost)
  verify_consensus_fault : Gas
  verify_replica_update : Gas
  block_memcpy : ScalingCost
  block_allocate : ScalingCost
  block_memory_retention_minimum : ScalingCost
  block_open : ScalingCost
  block_persist_storage : ScalingCost
  block_persist_compute : Gas
  wasm_rules : WasmGasPrices
  event_per_entry : ScalingCost
  builtin_actor_manifest_lookup : Gas
  utf8_validation : ScalingCost
  network_context : Gas
  message_context : Gas
  install_wasm_per_byte_cost : Gas
  preloaded_actors : List Nat
  ipld_cbor_scan_per_field : Gas
  ipld_cbor_scan_per_cid : Gas
  ipld_link_tracked : Gas
  ipld_link_checked : Gas

/-- The Watermelon price list, from price_list.rs (WATERMELON_PRICES). -/
def WATERMELON_PRICES : PriceList where
  on_chain_message_compute := ScalingCost.fixed (Gas.new 38863)
  on_chain_message_storage := ⟨Gas.new (36 * 1300), Gas.new 1300⟩
  on_chain_return_compute := ScalingCost.zero
  on_chain_return_storage := ⟨Gas.zero, Gas.new 1300⟩
  send_transfer_funds := Gas.new 6000
  send_invoke_method := Gas.new 75000
  actor_lookup := Gas.new 500000
  actor_update := Gas.new 475000
  actor_create_storage := Gas.new 650000
  address_lookup := Gas.new 1050000
  address_assignment := Gas.new 1000000
  sig_cost := fun t =>
    match t with
    | .Secp256k1 => ⟨Gas.new 1637292, Gas.new 10⟩
    | .BLS => ⟨Gas.new 16598605, Gas.new 26⟩
  secp256k1_recover_cost := Gas.new 1637292
  bls_pairing_cost := Gas.new 8299302
  bls_hashing_cost := ⟨Gas.zero, Gas.new 7⟩
  hashing_cost := fun h =>
    match h with
    | .Sha2_256 => ⟨Gas.zero, Gas.new 7⟩
    | .Blake2b256 => ⟨Gas.zero, Gas.new 10⟩
    | .Blake2b512 => ⟨Gas.zero, Gas.new 10⟩
    | .Keccak256 => ⟨Gas.zero, Gas.new 33⟩
    | .Ripemd160 => ⟨Gas.zero, Gas.new 35⟩
  compute_unsealed_sector_cid_base := Gas.new 98647
  verify_seal_base := Gas.new 2000
  verify_aggregate_seal_per :=
    [(.StackedDRG32GiBV1P1, Gas.new 449900),
     (.StackedDRG64GiBV1P1, Gas.new 359272)]
  verify_aggregate_seal_steps :=
    [(.StackedDRG32GiBV1P1, ⟨
        [⟨4, Gas.new 103994170⟩,
         ⟨7, Gas.new 112356810⟩,
         ⟨13, Gas.new 122912610⟩,
         ⟨26, Gas.new 137559930⟩,
         ⟨52, Gas.new 162039100⟩,
         ⟨103, Gas.new 210960780⟩,
         ⟨205, Gas.new 318351180⟩,
         ⟨410, Gas.new 528274980⟩]⟩),
     (.StackedDRG64GiBV1P1, ⟨
        [⟨4, Gas.new 102581240⟩,
         ⟨7, Gas.new 110803030⟩,
         ⟨13, Gas.new 120803700⟩,
         ⟨26, Gas.new 134642130⟩,
         ⟨52, Gas.new 157357890⟩,
         ⟨103, Gas.new 203017690⟩,
         ⟨205, Gas.new 304253590⟩,
         ⟨410, Gas.new 509880640⟩]⟩)]
  verify_consensus_fault := Gas.new 516422
  verify_replica_update := Gas.new 36316136
  verify_post_lookup :=
    [(.StackedDRGWindow512MiBV1P1, ⟨Gas.new 117680921, Gas.new 43780⟩),
     (.StackedDRGWindow32GiBV1P1, ⟨Gas.new 117680921, Gas.new 43780⟩),
     (.StackedDRGWindow64GiBV1P1, ⟨Gas.new 117680921, Gas.new 43780⟩)]
  lookback_cost := ⟨Gas.new (5800 * 19 + 15000 + 21000), Gas.new 75⟩
  block_allocate := ⟨Gas.zero, Gas.new 2⟩
  block_memcpy := ⟨Gas.zero, Gas.from_milligas 400⟩
  block_memory_retention_minimum := ⟨Gas.zero, Gas.new 10⟩
  block_open := ⟨Gas.new 187440, Gas.zero⟩
  block_persist_storage := ⟨Gas.new 334000, Gas.new 3340⟩
  block_persist_compute := Gas.new 172000
  builtin_actor_manifest_lookup := Gas.zero
  network_context := Gas.zero
  message_context := Gas.zero
  install_wasm_per_byte_cost := Gas.zero
  wasm_rules :=
    { instruction_default := Gas.new 4
      math_default := Gas.new 4
      jump_unconditional := Gas.new 4
      jump_conditional := Gas.new 4
      jump_indirect := Gas.new 4
      call := Gas.zero
      memory_fill_base_cost := Gas.zero
      memory_access_cost := Gas.zero
      memory_copy_per_byte_cost := Gas.from_milligas 400
      memory_fill_per_byte_cost := Gas.from_milligas 400
      host_call_cost := Gas.new 14000 }
  event_per_entry := ⟨Gas.new 2000, Gas.new 1400⟩
  utf8_validation := ⟨Gas.new 500, Gas.new 16⟩
  preloaded_actors := [0, 1, 2, 3, 4, 5, 6, 7, 10, 99]
  ipld_cbor_scan_per_cid := Gas.new 400
  ipld_cbor_scan_per_field := Gas.new 35
  ipld_link_tracked := Gas.new 300
  ipld_link_checked := Gas.new 300

/-- The Teep price list, from price_list.rs (TEEP_PRICES): the Watermelon
prices with a higher seal-verify base and aggregate-seal tables extended with
the two NiPoRep variants. -/
def TEEP_PRICES : PriceList :=
  { WATERMELON_PRICES with
    verify_seal_base := Gas.new 42000000
    verify_aggregate_seal_per :=
      [(.StackedDRG32GiBV1P1, Gas.new 449900),
       (.StackedDRG64GiBV1P1, Gas.new 359272),
       (.StackedDRG32GiBV1P2_Feat_NiPoRep, Gas.new (44990 * 126)),
       (.StackedDRG64GiBV1P2_Feat_NiPoRep, Gas.new (35928 * 126))]
    verify_aggregate_seal_steps :=
      [(.StackedDRG32GiBV1P1, ⟨
          [⟨4, Gas.new 103994170⟩,
           ⟨7, Gas.new 112356810⟩,
           ⟨13, Gas.new 122912610⟩,
           ⟨26, Gas.new 137559930⟩,
           ⟨52, Gas.new 162039100⟩,
           ⟨103, Gas.new 210960780⟩,
           ⟨205, Gas.new 318351180⟩,
           ⟨410, Gas.new 528274980⟩]⟩),
       (.StackedDRG64GiBV1P1, ⟨
          [⟨4, Gas.new 102581240⟩,
           ⟨7, Gas.new 110803030⟩,
           ⟨13, Gas.new 120803700⟩,
           ⟨26, Gas.new 134642130⟩,
           ⟨52, Gas.new 157357890⟩,
           ⟨103, Gas.new 203017690⟩,
           ⟨205, Gas.new 304253590⟩,
           ⟨410, Gas.new 509880640⟩]⟩),
       (.StackedDRG32GiBV1P2_Feat_NiPoRep, ⟨
          [⟨1, Gas.new 112356810⟩,
           ⟨2, Gas.new 122912610⟩,
           ⟨3, Gas.new 137559930⟩,
           ⟨5, Gas.new 162039100⟩,
           ⟨9, Gas.new 210960780⟩,
           ⟨17, Gas.new 318351180⟩,
           ⟨33, Gas.new 528274980⟩]⟩),
       (.StackedDRG64GiBV1P2_Feat_NiPoRep, ⟨
          [⟨1, Gas.new 110803030⟩,
           ⟨2, Gas.new 120803700⟩,
           ⟨3, Gas.new 134642130⟩,
           ⟨5, Gas.new 157357890⟩,
           ⟨9, Gas.new 203017690⟩,
           ⟨17, Gas.new 304253590⟩,
           ⟨33, Gas.new 509880640⟩]⟩)] }

/-- The maximum overhead (in bytes) of a single event when encoded into CBOR,
from price_list.rs. -/
def EVENT_OVERHEAD : Nat := 12

/-- The maximum overhead (in bytes) of a single event entry when encoded into
CBOR, from price_list.rs. -/
def EVENT_ENTRY_OVERHEAD : Nat := 9

/-- Modelled from the spec: one entry of an aggregate-seal verification input,
from the shared types crate, which is not under src. Only the number of
entries matters to the gas charge, so the entry carries just its sector
number. -/
structure AggregateSealVerifyInfo where
  sector_number : Nat
deriving DecidableEq, Repr

/-- Modelled from the spec: an aggregate-seal verification input, from the
shared types crate, which is not under src; the charge reads the seal-proof
type and the length of the info vector. -/
structure AggregateSealVerifyProofAndInfos where
  seal_proof : RegisteredSealProof
  infos : List AggregateSealVerifyInfo
deriving DecidableEq, Repr

/-- Modelled from the spec: one window PoSt proof of a verification input,
from the shared types crate, which is not under src; the charge reads only the
proof type, so the proof bytes are omitted. -/
structure PoStProof where
  post_proof : RegisteredPoStProof
deriving DecidableEq, Repr

/-- Modelled from the spec: a window PoSt verification input, from the shared
types crate, which is not under src. The charge reads the first proof and the
length of the challenged-sector vector, so the sectors are embedded as their
count. -/
structure WindowPoStVerifyInfo where
  proofs : List PoStProof
  challenged_sectors : Nat
deriving DecidableEq, Repr

/-- PriceList::on_verify_aggregate_seals from price_list.rs. The two table
lookups fall back to the StackedDRG32GiBV1P1 entry on a missing key; the
expect on a missing fallback entry (an implementation error) is modelled as
none. -/
def PriceList.on_verify_aggregate_seals (pl : PriceList)
    (aggregate : AggregateSealVerifyProofAndInfos) : Option GasCharge :=
  let proof_type := aggregate.seal_proof
  match (pl.verify_aggregate_seal_per.lookup proof_type).orElse
          (fun _ => pl.verify_aggregate_seal_per.lookup
            RegisteredSealProof.StackedDRG32GiBV1P1),
        (pl.verify_aggregate_seal_steps.lookup proof_type).orElse
          (fun _ => pl.verify_aggregate_seal_steps.lookup
            RegisteredSealProof.StackedDRG32GiBV1P1) with
  | some per_proof, some step =>
    let num := aggregate.infos.length
    some (GasCharge.new (per_proof * num + step.lookup num) Gas.zero)
  | _, _ => none

/-- PriceList::on_verify_post from price_list.rs. The proof type of the first
proof (or the 512 MiB V1 default when there is none) selects the table entry,
falling back to the 512 MiB V1 entry on a missing key; the expect on a missing
fallback entry is modelled as none. -/
def PriceList.on_verify_post (pl : PriceList) (info : WindowPoStVerifyInfo) :
    Option GasCharge :=
  let p_proof := ((info.proofs.head?.map PoStProof.post_proof).getD
    RegisteredPoStProof.StackedDRGWindow512MiBV1P1)
  match (pl.verify_post_lookup.lookup p_proof).orElse
          (fun _ => pl.verify_post_lookup.lookup
            RegisteredPoStProof.StackedDRGWindow512MiBV1P1) with
  | some cost => some (GasCharge.new (cost.apply info.challenged_sectors) Gas.zero)
  | none => none

/-- PriceList::on_block_open from price_list.rs. -/
def PriceList.on_block_open (pl : PriceList) (data_size links : Nat) :
    GasCharge :=
  let compute := pl.ipld_link_tracked * links
  let block_open := pl.block_open.scale * data_size
    + pl.block_allocate.apply data_size
    + pl.block_memcpy.apply data_size
  let retention_min := pl.block_memory_retention_minimum.apply data_size
  let retention_surcharge := Gas.max (retention_min - (compute + block_open))
    Gas.zero
  GasCharge.new compute (block_open + retention_surcharge)

/-- PriceList::on_block_create from price_list.rs. -/
def PriceList.on_block_create (pl : PriceList) (data_size links : Nat) :
    GasCharge :=
  let compute := pl.block_memcpy.apply data_size
    + pl.block_allocate.apply data_size
    + pl.ipld_link_checked * links
  let retention_min := pl.block_memory_retention_minimum.apply data_size
  let retention_surcharge := Gas.max (retention_min - compute) Gas.zero
  GasCharge.new compute retention_surcharge

/-- PriceList::on_actor_event from price_list.rs. The estimated size is
computed with saturating u64 arithmetic exactly as in the source. -/
def PriceList.on_actor_event (pl : PriceList)
    (entries keysize valuesize : Nat) : GasCharge :=
  let validate_entries := pl.event_per_entry.apply entries
  let validate_utf8 := pl.utf8_validation.apply keysize
  let estimated_size := u64SatAdd
    (u64SatAdd (u64SatAdd EVENT_OVERHEAD (u64SatMul EVENT_ENTRY_OVERHEAD entries))
      keysize)
    valuesize
  let mem := pl.block_memcpy.apply estimated_size
    + pl.block_allocate.apply estimated_size
  let hash := (pl.hashing_cost SupportedHashes.Blake2b256).apply estimated_size
  GasCharge.new
    (mem * 2 + validate_entries + validate_utf8)
    (hash + mem)

/-- price_list_by_network_version from price_list.rs, with the network version
embedded as its numeric value and the nv27-dev cargo feature as a boolean
parameter; the panic on an unsupported version is modelled as none. -/
def price_list_by_network_version (nv27_dev : Bool) (network_version : Nat) :
    Option PriceList :=
  if network_version = 21 ∨ network_version = 22 ∨ network_version = 23
      ∨ network_version = 24 then
    some WATERMELON_PRICES
  else if network_version = 25 ∨ network_version = 26 then
    some TEEP_PRICES
  else if network_version = 27 ∧ nv27_dev = true then
    some TEEP_PRICES
  else
    none

/-- The maximum length of a canonically encoded CID in bytes, from the shared
types crate (MAX_CID_LEN). -/
def MAX_CID_LEN : Nat := 100

/-- The syscall error numbers relevant to the memory accessors, from the
shared error type, which is not under src. -/
inductive ErrorNumber where
  | IllegalArgument
  | BufferTooSmall
  | NotFound
  | Serialization
  | IllegalState
deriving DecidableEq, Repr

/-- Modelled from the spec: a CID as in the data model of section 3 and the
glossary: a version, a codec tag and a multihash made of a hash code and a
digest. The digest length is carried by the digest list itself. -/
structure Cid where
  version : Nat
  codec : Nat
  hash_code : Nat
  digest : List Nat
deriving DecidableEq, Repr

/-- Modelled from the spec: validity of a CID. Each varint-encoded header
component fits in 9 varint bytes (63 bits), the digest is at most 64 bytes,
and digest bytes are bytes; these are the bounds under which the canonical
binary form is at most MAX_CID_LEN bytes. -/
def Cid.wf (c : Cid) : Prop :=
  c.version < 2 ^ 63 ∧ c.codec < 2 ^ 63 ∧ c.hash_code < 2 ^ 63
    ∧ c.digest.length ≤ 64 ∧ ∀ b ∈ c.digest, b < 256

instance (c : Cid) : Decidable c.wf := by
  unfold Cid.wf; infer_instance

/-- Modelled from the spec: unsigned LEB128 varint encoding of a natural
number, least-significant seven bits first, high bit marking continuation. -/
def encode_varint (n : Nat) : List Nat :=
  if h : n < 128 then [n]
  else (n % 128 + 128) :: encode_varint (n / 128)
decreasing_by exact Nat.div_lt_self (by omega) (by omega)

/-- Modelled from the spec: the canonical binary form of a CID: varints for
version, codec, hash code and digest length, followed by the digest bytes. -/
def encode_cid (c : Cid) : List Nat :=
  encode_varint c.version ++ encode_varint c.codec ++ encode_varint c.hash_code
    ++ encode_varint c.digest.length ++ c.digest

/-- Modelled from the spec: unsigned LEB128 varint decoding; returns the value
and the remaining bytes, or none on truncated input. -/
def parse_varint : List Nat → Option (Nat × List Nat)
  | [] => none
  | b :: rest =>
    if b < 128 then some (b, rest)
    else match parse_varint rest with
      | some (n, rest2) => some (b % 128 + 128 * n, rest2)
      | none => none

/-- Modelled from the spec: Cid::read_bytes of the cid crate, consumed by
Memory::read_cid: parse the four varint headers, then take digest-length bytes
(bounded by the 64-byte maximum digest); returns the CID and the number of
bytes consumed, or none on malformed or truncated input. No length prior to
the end of the headers is needed, so trailing bytes are ignored. -/
def parse_cid (bytes : List Nat) : Option (Cid × Nat) :=
  match parse_varint bytes with
  | none => none
  | some (version, r1) =>
    match parse_varint r1 with
    | none => none
    | some (codec, r2) =>
      match parse_varint r2 with
      | none => none
      | some (hash_code, r3) =>
        match parse_varint r3 with
        | none => none
        | some (dlen, r4) =>
          if dlen ≤ 64 ∧ dlen ≤ r4.length then
            some (⟨version, codec, hash_code, r4.take dlen⟩,
              bytes.length - (r4.length - dlen))
          else none

/-- The actor memory from syscalls/context.rs, a byte slice. -/
structure Memory where
  data : List Nat
deriving DecidableEq, Repr

/-- Memory::read_cid from syscalls/context.rs: slice the memory from the
offset to the very end (an offset past the end is an IllegalArgument error),
then parse a CID from the slice, any parse failure again being an
IllegalArgument error. -/
def Memory.read_cid (mem : Memory) (offset : Nat) : Except ErrorNumber Cid :=
  if offset ≤ mem.data.length then
    match parse_cid (mem.data.drop offset) with
    | some (c, _) => .ok c
    | none => .error .IllegalArgument
  else .error .IllegalArgument

/-- The change kind produced by the AMT diff, from ipld/amt/src/diff.rs. -/
inductive ChangeType where
  | Add
  | Remove
  | Modify
deriving DecidableEq, Repr

/-- One change produced by the AMT diff, from ipld/amt/src/diff.rs. -/
structure Change (V : Type) where
  change_type : ChangeType
  key : Nat
  before : Option V
  after : Option V
deriving DecidableEq, Repr

/-- The failure cases of the AMT diff, mirroring the bail and ensure messages
of ipld/amt/src/diff.rs plus a missing-block failure of the blockstore. -/
inductive DiffError where
  | bitWidthMismatch
  | leafExpected
  | linkExpected
  | lengthMismatch
  | noLinks
  | unchangedLinkExpected
  | missingBlock
  | heightInvariant
deriving DecidableEq, Repr

mutual

/-- Modelled from the spec: an AMT node from the amt node module, which is not
under src: a leaf holding a fixed vector of optional values, or a link node
holding a vector of optional child references (section 4.4). -/
inductive Node (V : Type) where
  | leaf (vals : List (Option V))
  | link (links : List (Option (Link V)))

/-- Modelled from the spec: a child reference of an AMT link node, which is
not under src: either a persisted subtree identified by a CID (identified here
by an opaque number) or an in-memory dirty subtree (section 9, tagged variants
InMemory and Persisted). -/
inductive Link (V : Type) where
  | cid (c : Nat)
  | dirty (node : Node V)

end

/-- Modelled from the spec: the blockstore consumed by the diff, combining
get of the block and its expansion into a node; none models an absent block.
-/
def Blockstore (V : Type) := Nat → Option (Node V)

/-- Loading a child node by CID: get_cbor of the collapsed node followed by
expand, with an absent block an error, as in ipld/amt/src/diff.rs. -/
def get_node (store : Blockstore V) (c : Nat) : Except DiffError (Node V) :=
  match store c with
  | some n => .ok n
  | none => .error .missingBlock

/-- Modelled from the spec: nodes_for_height of the amt module, which is not
under src: the index capacity of one child subtree below a node of the given
height, 2 to the power bit_width times height (section 4.4). -/
def nodes_for_height (bit_width height : Nat) : Nat := 2 ^ (bit_width * height)

/-- The node context of ipld/amt/src/diff.rs: a height and a bit width. -/
structure NodeContext where
  height : Nat
  bit_width : Nat
deriving DecidableEq, Repr

/-- NodeContext::nodes_at_height from ipld/amt/src/diff.rs. -/
def NodeContext.nodes_at_height (ctx : NodeContext) : Nat :=
  nodes_for_height ctx.bit_width ctx.height

/-- Modelled from the spec: resolution of a child reference during iteration:
a persisted link is loaded from the blockstore, a dirty link holds its node
in memory. -/
def resolve_link (store : Blockstore V) : Link V → Except DiffError (Node V)
  | .cid c => get_node store c
  | .dirty n => .ok n

/-- The (index, value) entries of a leaf vector, indices offset by the leaf
position. -/
def leaf_entries (vals : List (Option V)) (offset : Nat) : List (Nat × V) :=
  vals.enum.filterMap (fun p => p.2.map (fun x => (offset + p.1, x)))

/-- Iteration over the children of a link node: each present child is
resolved and traversed with the recursion argument at its shifted offset,
results concatenated in slot order. -/
def for_each_children (go : Node V → Nat → Except DiffError (List (Nat × V)))
    (store : Blockstore V) (sub_count : Nat) :
    List (Option (Link V)) → Nat → Nat → Except DiffError (List (Nat × V))
  | [], _, _ => .ok []
  | none :: rest, offset, i =>
    for_each_children go store sub_count rest offset (i + 1)
  | some l :: rest, offset, i => do
    let child ← resolve_link store l
    let cs ← go child (offset + sub_count * i)
    let rest2 ← for_each_children go store sub_count rest offset (i + 1)
    .ok (cs ++ rest2)

/-- Modelled from the spec: Node::for_each_while of the amt node module, which
is not under src, restricted to the always-continue closures used by the diff:
it returns the list of all (index, value) entries of the subtree in ascending
index order (section 4.4). A leaf yields its present values at their offset
indices; a link node at positive height traverses each present child at its
shifted offset; a link node at height zero violates the AMT shape invariant.
-/
def node_for_each (store : Blockstore V) (bit_width : Nat) (height : Nat) :
    Node V → Nat → Except DiffError (List (Nat × V)) :=
  Nat.rec (motive := fun _ => Node V → Nat → Except DiffError (List (Nat × V)))
    (fun node offset =>
      match node with
      | .leaf vals => .ok (leaf_entries vals offset)
      | .link _ => .error .heightInvariant)
    (fun h ih node offset =>
      match node with
      | .leaf vals => .ok (leaf_entries vals offset)
      | .link links =>
        for_each_children ih store (nodes_for_height bit_width (h + 1)) links
          offset 0)
    height

/-- add_all from ipld/amt/src/diff.rs: every entry of the subtree becomes an
Add change carrying the added value in the after field. -/
def add_all (store : Blockstore V) (ctx : NodeContext) (node : Node V)
    (offset : Nat) : Except DiffError (List (Change V)) :=
  (node_for_each store ctx.bit_width ctx.height node offset).map
    (List.map (fun e => ⟨ChangeType.Add, e.1, none, some e.2⟩))

/-- remove_all from ipld/amt/src/diff.rs, exactly as written there: every
entry of the subtree becomes a Remove change whose before field is None and
whose after field carries the removed value. -/
def remove_all (store : Blockstore V) (ctx : NodeContext) (node : Node V)
    (offset : Nat) : Except DiffError (List (Change V)) :=
  (node_for_each store ctx.bit_width ctx.height node offset).map
    (List.map (fun e => ⟨ChangeType.Remove, e.1, none, some e.2⟩))

/-- diff_leaves from ipld/amt/src/diff.rs: position-wise comparison of two
leaf vectors of equal length. -/
def diff_leaves (prev_node curr_node : Node V) (offset : Nat) :
    Except DiffError (List (Change V)) :=
  match prev_node, curr_node with
  | .leaf prev_vals, .leaf curr_vals =>
    if prev_vals.length = curr_vals.length then
      .ok ((prev_vals.zip curr_vals).enum.filterMap (fun p =>
        let index := offset + p.1
        match p.2.1, p.2.2 with
        | none, none => none
        | none, some curr_val => some ⟨.Add, index, none, some curr_val⟩
        | some prev_val, none => some ⟨.Remove, index, some prev_val, none⟩
        | some prev_val, some curr_val =>
          some ⟨.Modify, index, some prev_val, some curr_val⟩))
    else .error .lengthMismatch
  | _, _ => .error .leafExpected

/-- Resolution of a child reference inside the diff, which expects flushed
trees: a persisted link is loaded from the blockstore and a dirty link is the
Unchanged-link-expected bail of ipld/amt/src/diff.rs. -/
def diff_get_link_node (store : Blockstore V) :
    Link V → Except DiffError (Node V)
  | .cid c => get_node store c
  | .dirty _ => .error .unchangedLinkExpected

mutual

/-- diff_node from ipld/amt/src/diff.rs: two leaves are compared position
wise; when one context is taller, its extra level is unfolded with the other
tree occupying slot 0; at equal positive heights, children are compared pair
wise with a CID-equality short circuit. -/
def diff_node (store : Blockstore V) (prev_ctx : NodeContext)
    (prev_node : Node V) (curr_ctx : NodeContext) (curr_node : Node V)
    (offset : Nat) : Except DiffError (List (Change V)) :=
  if hz : prev_ctx.height = 0 ∧ curr_ctx.height = 0 then
    diff_leaves prev_node curr_node offset
  else if hgt : curr_ctx.height > prev_ctx.height then
    match curr_node with
    | .link links =>
      diff_taller store prev_ctx prev_node curr_ctx.bit_width
        (curr_ctx.height - 1) curr_ctx.nodes_at_height links offset 0
    | _ => .error .linkExpected
  else if hlt : curr_ctx.height < prev_ctx.height then
    match prev_node with
    | .link links =>
      diff_shorter store prev_ctx.bit_width (prev_ctx.height - 1)
        prev_ctx.nodes_at_height links curr_ctx curr_node offset 0
    | _ => .error .linkExpected
  else
    match prev_node, curr_node with
    | .link prev_links, .link curr_links =>
      if prev_links.length = curr_links.length then
        diff_same store prev_ctx.bit_width (prev_ctx.height - 1)
          (curr_ctx.height - 1) prev_ctx.nodes_at_height
          (prev_links.zip curr_links) offset 0
      else .error .lengthMismatch
    | _, _ => .error .noLinks
termination_by (2 * (prev_ctx.height + curr_ctx.height) + 1, 0)
decreasing_by
  all_goals simp_wf
  all_goals first
    | (apply Prod.Lex.left; omega)
    | (apply Prod.Lex.right; omega)

/-- The loop of the taller-current branch of diff_node: slot 0 is compared
against the whole shorter previous tree, every other present slot is all
additions. -/
def diff_taller (store : Blockstore V) (prev_ctx : NodeContext)
    (prev_node : Node V) (bit_width sub_height sub_count : Nat)
    (links : List (Option (Link V))) (offset i : Nat) :
    Except DiffError (List (Change V)) :=
  match links with
  | [] => .ok []
  | none :: rest =>
    diff_taller store prev_ctx prev_node bit_width sub_height sub_count rest
      offset (i + 1)
  | some l :: rest => do
    let sub_node ← diff_get_link_node store l
    let new_offset := offset + sub_count * i
    let sub_ctx : NodeContext := ⟨sub_height, bit_width⟩
    let head ←
      if i = 0 then diff_node store prev_ctx prev_node sub_ctx sub_node new_offset
      else add_all store sub_ctx sub_node new_offset
    let tail ←
      diff_taller store prev_ctx prev_node bit_width sub_height sub_count rest
        offset (i + 1)
    .ok (head ++ tail)
termination_by (2 * (prev_ctx.height + sub_height + 1), links.length)
decreasing_by
  all_goals simp_wf
  all_goals first
    | (apply Prod.Lex.left; omega)
    | (apply Prod.Lex.right; omega)

/-- The loop of the taller-previous branch of diff_node: slot 0 is compared
against the whole shorter current tree, every other present slot is all
removals. -/
def diff_shorter (store : Blockstore V) (bit_width sub_height sub_count : Nat)
    (links : List (Option (Link V))) (curr_ctx : NodeContext)
    (curr_node : Node V) (offset i : Nat) :
    Except DiffError (List (Change V)) :=
  match links with
  | [] => .ok []
  | none :: rest =>
    diff_shorter store bit_width sub_height sub_count rest curr_ctx curr_node
      offset (i + 1)
  | some l :: rest => do
    let sub_node ← diff_get_link_node store l
    let new_offset := offset + sub_count * i
    let sub_ctx : NodeContext := ⟨sub_height, bit_width⟩
    let head ←
      if i = 0 then diff_node store sub_ctx sub_node curr_ctx curr_node new_offset
      else remove_all store sub_ctx sub_node new_offset
    let tail ←
      diff_shorter store bit_width sub_height sub_count rest curr_ctx curr_node
        offset (i + 1)
    .ok (head ++ tail)
termination_by (2 * (sub_height + curr_ctx.height + 1), links.length)
decreasing_by
  all_goals simp_wf
  all_goals first
    | (apply Prod.Lex.left; omega)
    | (apply Prod.Lex.right; omega)

/-- The loop of the equal-heights branch of diff_node: a present-absent pair
is all removals, an absent-present pair all additions, and a present-present
pair recurses unless the two CIDs are equal, in which case the shared subtree
is skipped. -/
def diff_same (store : Blockstore V)
    (bit_width psub_height csub_height sub_count : Nat)
    (pairs : List (Option (Link V) × Option (Link V))) (offset i : Nat) :
    Except DiffError (List (Change V)) :=
  match pairs with
  | [] => .ok []
  | (none, none) :: rest =>
    diff_same store bit_width psub_height csub_height sub_count rest offset
      (i + 1)
  | (some prev_link, none) :: rest => do
    let sub_node ← diff_get_link_node store prev_link
    let cs ← remove_all store ⟨psub_height, bit_width⟩ sub_node
      (offset + sub_count * i)
    let rest2 ←
      diff_same store bit_width psub_height csub_height sub_count rest offset
        (i + 1)
    .ok (cs ++ rest2)
  | (none, some curr_link) :: rest => do
    let sub_node ← diff_get_link_node store curr_link
    let cs ← add_all store ⟨csub_height, bit_width⟩ sub_node
      (offset + sub_count * i)
    let rest2 ←
      diff_same store bit_width psub_height csub_height sub_count rest offset
        (i + 1)
    .ok (cs ++ rest2)
  | (some prev_link, some curr_link) :: rest =>
    match prev_link, curr_link with
    | .cid prev_cid, .cid curr_cid =>
      if prev_cid = curr_cid then
        diff_same store bit_width psub_height csub_height sub_count rest offset
          (i + 1)
      else do
        let prev_sub_node ← get_node store prev_cid
        let curr_sub_node ← get_node store curr_cid
        let cs ← diff_node store ⟨psub_height, bit_width⟩ prev_sub_node
          ⟨csub_height, bit_width⟩ curr_sub_node (offset + sub_count * i)
        let rest2 ←
          diff_same store bit_width psub_height csub_height sub_count rest
            offset (i + 1)
        .ok (cs ++ rest2)
    | _, _ => .error .unchangedLinkExpected
termination_by (2 * (psub_height + csub_height + 1), pairs.length)
decreasing_by
  all_goals simp_wf
  all_goals first
    | (apply Prod.Lex.left; omega)
    | (apply Prod.Lex.right; omega)

end

/-- The AMT handle, from the amt module, restricted to what the diff reads:
the configured bit width, the root height, count and node (modelled from the
spec, section 4.4), and the blockstore. -/
structure Amt (V : Type) where
  bit_width : Nat
  height : Nat
  count : Nat
  node : Node V
  block_store : Blockstore V

/-- diff from ipld/amt/src/diff.rs: differing bit widths fail; an empty
previous tree is all additions; an empty current tree is all removals;
otherwise the two roots are compared by diff_node. -/
def Amt.diff (prev_amt curr_amt : Amt V) :
    Except DiffError (List (Change V)) :=
  if prev_amt.bit_width ≠ curr_amt.bit_width then .error .bitWidthMismatch
  else if prev_amt.count = 0 ∧ curr_amt.count ≠ 0 then
    add_all curr_amt.block_store ⟨curr_amt.height, curr_amt.bit_width⟩
      curr_amt.node 0
  else if prev_amt.count ≠ 0 ∧ curr_amt.count = 0 then
    remove_all prev_amt.block_store ⟨prev_amt.height, prev_amt.bit_width⟩
      prev_amt.node 0
  else
    diff_node curr_amt.block_store ⟨prev_amt.height, prev_amt.bit_width⟩
      prev_amt.node ⟨curr_amt.height, curr_amt.bit_width⟩ curr_amt.node 0

theorem gas_add_def (a b : Gas) :
    a + b = ⟨min (a.milligas + b.milligas) U64MAX⟩ := rfl

theorem gas_sub_def (a b : Gas) : a - b = ⟨a.milligas - b.milligas⟩ := rfl

theorem gas_mul_def (a : Gas) (n : Nat) :
    a * n = ⟨min (a.milligas * n) U64MAX⟩ := rfl

theorem step_lookup_nil (x : Nat) : StepCost.lookup ⟨[]⟩ x = Gas.zero := rfl

theorem step_lookup_append (l : List Step) (s : Step) (x : Nat) :
    StepCost.lookup ⟨l ++ [s]⟩ x =
      if s.start ≤ x then s.cost else StepCost.lookup ⟨l⟩ x := by
  by_cases h : s.start ≤ x <;>
    simp [StepCost.lookup, List.find?, h]

theorem step_lookup_zero_or_mem (l : List Step) (x : Nat) :
    StepCost.lookup ⟨l⟩ x = Gas.zero ∨
      ∃ s ∈ l, s.start ≤ x ∧ StepCost.lookup ⟨l⟩ x = s.cost := by
  induction l using List.reverseRecOn with
  | nil => exact Or.inl rfl
  | append_singleton l s ih =>
    rw [step_lookup_append]
    by_cases h : s.start ≤ x
    · exact Or.inr ⟨s, List.mem_append_right _ (List.mem_singleton_self s),
        h, by simp [h]⟩
    · simp only [h, if_false]
      rcases ih with h0 | ⟨t, ht, htle, hteq⟩
      · exact Or.inl h0
      · exact Or.inr ⟨t, List.mem_append_left _ ht, htle, hteq⟩

theorem step_lookup_zero_of_forall_lt (l : List Step) (x : Nat)
    (h : ∀ s ∈ l, x < s.start) : StepCost.lookup ⟨l⟩ x = Gas.zero := by
  rcases step_lookup_zero_or_mem l x with h0 | ⟨s, hs, hle, _⟩
  · exact h0
  · exact absurd hle (by have := h s hs; omega)

theorem step_lookup_greatest (l : List Step)
    (hs : l.Pairwise (fun a b => a.start < b.start)) (x : Nat) (s : Step)
    (hmem : s ∈ l) (hle : s.start ≤ x)
    (hmax : ∀ t ∈ l, t.start ≤ x → t.start ≤ s.start) :
    StepCost.lookup ⟨l⟩ x = s.cost := by
  induction l using List.reverseRecOn with
  | nil => cases hmem
  | append_singleton l u ih =>
    rw [List.pairwise_append] at hs
    obtain ⟨hps, -, hrel⟩ := hs
    rw [step_lookup_append]
    by_cases hu : u.start ≤ x
    · simp only [hu, if_true]
      rcases List.mem_append.mp hmem with hmem2 | hmem2
      · have h1 : u.start ≤ s.start :=
          hmax u (List.mem_append_right _ (List.mem_singleton_self u)) hu
        have h2 : s.start < u.start :=
          hrel s hmem2 u (List.mem_singleton_self u)
        omega
      · rw [List.mem_singleton.mp hmem2]
    · simp only [hu, if_false]
      rcases List.mem_append.mp hmem with hmem2 | hmem2
      · exact ih hps hmem2
          (fun t ht htle => hmax t (List.mem_append_left _ ht) htle)
      · rw [List.mem_singleton.mp hmem2] at hle
        omega

/-- Claim C3: for every step-cost ladder sorted by strictly increasing start,
lookup returns the cost of the step with the greatest start at or below the
target, zero when the target is below the first start or the ladder is empty;
and the ladder [(10,1),(20,2)] returns 0 at 0 and 5, 1 at 10, 11 and 19, and
2 at 20 and 100. -/
theorem C3_step_cost_lookup :
    (∀ sc : StepCost, sc.steps.Pairwise (fun a b => a.start < b.start) →
      ∀ x : Nat,
        ((∀ s ∈ sc.steps, x < s.start) → sc.lookup x = Gas.zero) ∧
        (∀ s ∈ sc.steps, s.start ≤ x →
          (∀ t ∈ sc.steps, t.start ≤ x → t.start ≤ s.start) →
          sc.lookup x = s.cost)) ∧
    ((StepCost.mk [⟨10, Gas.new 1⟩, ⟨20, Gas.new 2⟩]).lookup 0 = Gas.zero ∧
     (StepCost.mk [⟨10, Gas.new 1⟩, ⟨20, Gas.new 2⟩]).lookup 5 = Gas.zero ∧
     (StepCost.mk [⟨10, Gas.new 1⟩, ⟨20, Gas.new 2⟩]).lookup 10 = Gas.new 1 ∧
     (StepCost.mk [⟨10, Gas.new 1⟩, ⟨20, Gas.new 2⟩]).lookup 11 = Gas.new 1 ∧
     (StepCost.mk [⟨10, Gas.new 1⟩, ⟨20, Gas.new 2⟩]).lookup 19 = Gas.new 1 ∧
     (StepCost.mk [⟨10, Gas.new 1⟩, ⟨20, Gas.new 2⟩]).lookup 20 = Gas.new 2 ∧
     (StepCost.mk [⟨10, Gas.new 1⟩, ⟨20, Gas.new 2⟩]).lookup 100 = Gas.new 2) := by
  constructor
  · intro sc hs x
    exact ⟨step_lookup_zero_of_forall_lt sc.steps x,
      fun s hmem hle hmax => step_lookup_greatest sc.steps hs x s hmem hle hmax⟩
  · exact ⟨rfl, rfl, rfl, rfl, rfl, rfl, rfl⟩

/-- Witness for C3 at the concrete ladder of the claim: the step (10, 1) is
the greatest step at or below 15, and lookup returns its cost. -/
theorem C3_step_cost_lookup_witness :
    (StepCost.mk [⟨10, Gas.new 1⟩, ⟨20, Gas.new 2⟩]).lookup 15 = Gas.new 1 :=
  (C3_step_cost_lookup.1 ⟨[⟨10, Gas.new 1⟩, ⟨20, Gas.new 2⟩]⟩ (by decide) 15).2
    ⟨10, Gas.new 1⟩ (by decide) (by decide) (by decide)

/-- Counterexample to claim C4 as stated: the step-cost ladder
[(10, 5 gas), (20, 2 gas)] has 10 at or below 20 but a larger lookup at 10
than at 20, so lookup is not monotone for every ladder. -/
theorem C4_counterexample :
    (10 : Nat) ≤ 20 ∧
    ((StepCost.mk [⟨10, Gas.new 5⟩, ⟨20, Gas.new 2⟩]).lookup 20).milligas <
      ((StepCost.mk [⟨10, Gas.new 5⟩, ⟨20, Gas.new 2⟩]).lookup 10).milligas := by
  exact ⟨by omega, by decide⟩

/-- Claim C4 (amended): for every step-cost ladder whose starts strictly
increase and whose costs are nondecreasing along the ladder, lookup is
monotone; and every aggregate-seal step ladder of the Watermelon and Teep
price lists satisfies that condition. -/
theorem C4_step_cost_monotone :
    (∀ sc : StepCost,
      sc.steps.Pairwise
        (fun a b => a.start < b.start ∧ a.cost.milligas ≤ b.cost.milligas) →
      ∀ x y : Nat, x ≤ y → (sc.lookup x).milligas ≤ (sc.lookup y).milligas) ∧
    (∀ p ∈ WATERMELON_PRICES.verify_aggregate_seal_steps,
      p.2.steps.Pairwise
        (fun a b => a.start < b.start ∧ a.cost.milligas ≤ b.cost.milligas)) ∧
    (∀ p ∈ TEEP_PRICES.verify_aggregate_seal_steps,
      p.2.steps.Pairwise
        (fun a b => a.start < b.start ∧ a.cost.milligas ≤ b.cost.milligas)) := by
  refine ⟨?_, by intro p hp; fin_cases hp <;> decide,
    by intro p hp; fin_cases hp <;> decide⟩
  intro sc hs x y hxy
  rcases sc with ⟨l⟩
  induction l using List.reverseRecOn with
  | nil => simp [step_lookup_nil]
  | append_singleton l u ih =>
    rw [List.pairwise_append] at hs
    obtain ⟨hps, -, hrel⟩ := hs
    rw [step_lookup_append, step_lookup_append]
    by_cases hx : u.start ≤ x
    · have hy : u.start ≤ y := by omega
      simp [hx, hy]
    · by_cases hy : u.start ≤ y
      · simp only [hx, hy, if_true, if_false]
        rcases step_lookup_zero_or_mem l x with h0 | ⟨t, ht, -, hteq⟩
        · rw [h0]; exact Nat.zero_le _
        · rw [hteq]
          exact (hrel t ht u (List.mem_singleton_self u)).2
      · simpa [hx, hy] using ih hps


/-- Witness for C4 (amended) at the concrete ladder [(10, 1), (20, 2)], which
satisfies the sortedness condition, with 5 at or below 20. -/
theorem C4_step_cost_monotone_witness :
    ((StepCost.mk [⟨10, Gas.new 1⟩, ⟨20, Gas.new 2⟩]).lookup 5).milligas ≤
      ((StepCost.mk [⟨10, Gas.new 1⟩, ⟨20, Gas.new 2⟩]).lookup 20).milligas :=
  C4_step_cost_monotone.1 ⟨[⟨10, Gas.new 1⟩, ⟨20, Gas.new 2⟩]⟩ (by decide) 5 20
    (by omega)

/-- Claim C5: for every price list and all sizes and link counts, the total of
the block-open charge is at least the data size times the scale of the
block-memory-retention minimum, under saturating gas arithmetic; and that
scale is 10 gas per byte in both shipped price lists. -/
theorem C5_block_open_retention_floor :
    (∀ (pl : PriceList) (n links : Nat),
      (pl.block_memory_retention_minimum.scale * n).milligas ≤
        ((pl.on_block_open n links).total).milligas) ∧
    WATERMELON_PRICES.block_memory_retention_minimum.scale = Gas.new 10 ∧
    TEEP_PRICES.block_memory_retention_minimum.scale = Gas.new 10 := by
  refine ⟨?_, rfl, rfl⟩
  intro pl n links
  simp only [PriceList.on_block_open, GasCharge.total, GasCharge.new,
    ScalingCost.apply, gas_add_def, gas_mul_def, gas_sub_def, Gas.max, Gas.zero,
    Nat.max_zero]
  generalize pl.ipld_link_tracked.milligas * links = a
  generalize pl.block_open.scale.milligas * n = b
  generalize pl.block_allocate.scale.milligas * n = c
  generalize pl.block_memcpy.scale.milligas * n = d
  generalize pl.block_memory_retention_minimum.scale.milligas * n = e
  omega

/-- Claim C6: under the Watermelon price list, opening and creating a block of
10 bytes with no links both cost exactly 100 gas in total. -/
theorem C6_read_write_floor :
    (WATERMELON_PRICES.on_block_open 10 0).total = Gas.new 100 ∧
    (WATERMELON_PRICES.on_block_create 10 0).total = Gas.new 100 := by
  exact ⟨rfl, rfl⟩

/-- Claim C7: for every price list, an event of E entries, K key bytes and V
value bytes is charged from the saturating estimated size
S = 12 + 9 E + K + V: compute gas is entry validation at E plus UTF-8
validation at K plus twice the per-copy cost (memcpy plus allocation) at S,
and deferred gas is the Blake2b-256 hashing cost at S plus one further
per-copy cost at S; and the estimated size saturates at the u64 maximum on
pathological inputs instead of failing. -/
theorem C7_on_actor_event :
    (∀ (pl : PriceList) (entries keysize valuesize : Nat),
      pl.on_actor_event entries keysize valuesize =
        (let S := min
          (EVENT_OVERHEAD + EVENT_ENTRY_OVERHEAD * entries + keysize
            + valuesize) U64MAX
        let per_copy := pl.block_memcpy.apply S + pl.block_allocate.apply S
        GasCharge.new
          (pl.event_per_entry.apply entries + pl.utf8_validation.apply keysize
            + per_copy * 2)
          ((pl.hashing_cost SupportedHashes.Blake2b256).apply S + per_copy))) ∧
    u64SatAdd
        (u64SatAdd (u64SatAdd EVENT_OVERHEAD (u64SatMul EVENT_ENTRY_OVERHEAD U64MAX))
          U64MAX) U64MAX = U64MAX := by
  constructor
  · intro pl E K V
    have hs : u64SatAdd
        (u64SatAdd (u64SatAdd EVENT_OVERHEAD (u64SatMul EVENT_ENTRY_OVERHEAD E)) K)
          V =
        min (EVENT_OVERHEAD + EVENT_ENTRY_OVERHEAD * E + K + V) U64MAX := by
      simp only [u64SatAdd, u64SatMul]
      generalize EVENT_ENTRY_OVERHEAD * E = t
      omega
    simp only [PriceList.on_actor_event, hs, GasCharge.new]
    generalize pl.block_memcpy.apply
      (min (EVENT_OVERHEAD + EVENT_ENTRY_OVERHEAD * E + K + V) U64MAX) +
      pl.block_allocate.apply
        (min (EVENT_OVERHEAD + EVENT_ENTRY_OVERHEAD * E + K + V) U64MAX) = m
    generalize pl.event_per_entry.apply E = ve
    generalize pl.utf8_validation.apply K = vu
    simp only [GasCharge.mk.injEq, gas_add_def, gas_mul_def, Gas.mk.injEq]
    constructor
    · omega
    · trivial
  · decide

/-- Claim C8: the network-version selector maps versions 21 to 24 to the
Watermelon price list, versions 25 and 26 to the Teep price list, version 27
to the Teep price list exactly when the nv27-dev feature is on, and rejects
every other version (the panic being modelled as none). -/
theorem C8_price_list_selection :
    (∀ (nv27_dev : Bool) (nv : Nat), 21 ≤ nv → nv ≤ 24 →
      price_list_by_network_version nv27_dev nv = some WATERMELON_PRICES) ∧
    (∀ nv27_dev, price_list_by_network_version nv27_dev 25 = some TEEP_PRICES) ∧
    (∀ nv27_dev, price_list_by_network_version nv27_dev 26 = some TEEP_PRICES) ∧
    price_list_by_network_version true 27 = some TEEP_PRICES ∧
    price_list_by_network_version false 27 = none ∧
    (∀ (nv27_dev : Bool) (nv : Nat), nv < 21 ∨ 27 < nv →
      price_list_by_network_version nv27_dev nv = none) := by
  refine ⟨?_, fun _ => rfl, fun _ => rfl, rfl, rfl, ?_⟩
  · intro flag nv h1 h2
    interval_cases nv <;> rfl
  · intro flag nv h
    simp only [price_list_by_network_version]
    rw [if_neg (by omega), if_neg (by omega),
      if_neg (by rintro ⟨h27, -⟩; omega)]

/-- Witness for C8 at version 22 with the feature off. -/
theorem C8_price_list_selection_witness :
    (21 ≤ 22 ∧ 22 ≤ 24) ∧
    price_list_by_network_version false 22 = some WATERMELON_PRICES :=
  ⟨⟨by omega, by omega⟩, C8_price_list_selection.1 false 22 (by omega) (by omega)⟩

/-- Claim C10: under both shipped price lists, a window PoSt verification with
an empty proofs vector does not fail: it charges the flat cost of the 512 MiB
V1 table entry plus its scale times the challenged-sector count as compute gas
with zero storage gas, exactly as if the first proof had been of the 512 MiB
V1 type. -/
theorem C10_verify_post_empty_proofs :
    (∀ n : Nat,
      WATERMELON_PRICES.on_verify_post ⟨[], n⟩ =
        some (GasCharge.new (Gas.new 117680921 + Gas.new 43780 * n) Gas.zero) ∧
      WATERMELON_PRICES.on_verify_post ⟨[], n⟩ =
        WATERMELON_PRICES.on_verify_post
          ⟨[⟨RegisteredPoStProof.StackedDRGWindow512MiBV1P1⟩], n⟩) ∧
    (∀ n : Nat,
      TEEP_PRICES.on_verify_post ⟨[], n⟩ =
        some (GasCharge.new (Gas.new 117680921 + Gas.new 43780 * n) Gas.zero) ∧
      TEEP_PRICES.on_verify_post ⟨[], n⟩ =
        TEEP_PRICES.on_verify_post
          ⟨[⟨RegisteredPoStProof.StackedDRGWindow512MiBV1P1⟩], n⟩) ∧
    WATERMELON_PRICES.verify_post_lookup.lookup
        RegisteredPoStProof.StackedDRGWindow512MiBV1P1 =
      some ⟨Gas.new 117680921, Gas.new 43780⟩ ∧
    TEEP_PRICES.verify_post_lookup.lookup
        RegisteredPoStProof.StackedDRGWindow512MiBV1P1 =
      some ⟨Gas.new 117680921, Gas.new 43780⟩ :=
  ⟨fun _ => ⟨rfl, rfl⟩, fun _ => ⟨rfl, rfl⟩, rfl, rfl⟩

/-- Claim C2: for every network version from 21 through 26 and every
aggregate-seal input, the charge is per-proof cost times the number of infos
plus the step-ladder lookup at that number, as compute gas with zero storage
gas, where the per-proof cost and ladder come from the tables of the selected
price list keyed by the seal-proof type, falling back to the
StackedDRG32GiBV1P1 entries on a missing key; under version 25 a single
32 GiB NiPoRep sector costs 44990 times 126 plus 112356810 = 118025550 gas and
a single 64 GiB NiPoRep sector costs 35928 times 126 plus 110803030
= 115329958 gas. -/
theorem C2_on_verify_aggregate_seals :
    (∀ (nv27_dev : Bool) (nv : Nat), 21 ≤ nv → nv ≤ 26 →
      ∃ pl, price_list_by_network_version nv27_dev nv = some pl ∧
        ∀ (pt : RegisteredSealProof) (infos : List AggregateSealVerifyInfo),
          ∃ per step,
            (pl.verify_aggregate_seal_per.lookup pt = some per ∨
              (pl.verify_aggregate_seal_per.lookup pt = none ∧
                pl.verify_aggregate_seal_per.lookup
                  RegisteredSealProof.StackedDRG32GiBV1P1 = some per)) ∧
            (pl.verify_aggregate_seal_steps.lookup pt = some step ∨
              (pl.verify_aggregate_seal_steps.lookup pt = none ∧
                pl.verify_aggregate_seal_steps.lookup
                  RegisteredSealProof.StackedDRG32GiBV1P1 = some step)) ∧
            pl.on_verify_aggregate_seals ⟨pt, infos⟩ =
              some (GasCharge.new
                (per * infos.length + step.lookup infos.length) Gas.zero)) ∧
    (∀ nv27_dev : Bool,
      ∃ pl, price_list_by_network_version nv27_dev 25 = some pl ∧
        pl.on_verify_aggregate_seals
            ⟨RegisteredSealProof.StackedDRG32GiBV1P2_Feat_NiPoRep, [⟨0⟩]⟩ =
          some (GasCharge.new (Gas.new (44990 * 126 + 112356810)) Gas.zero) ∧
        Gas.new (44990 * 126 + 112356810) = Gas.new 118025550 ∧
        pl.on_verify_aggregate_seals
            ⟨RegisteredSealProof.StackedDRG64GiBV1P2_Feat_NiPoRep, [⟨0⟩]⟩ =
          some (GasCharge.new (Gas.new (35928 * 126 + 110803030)) Gas.zero) ∧
        Gas.new (35928 * 126 + 110803030) = Gas.new 115329958) := by
  constructor
  · intro flag nv h1 h2
    have hsel : price_list_by_network_version flag nv = some WATERMELON_PRICES
        ∨ price_list_by_network_version flag nv = some TEEP_PRICES := by
      interval_cases nv
      · exact Or.inl rfl
      · exact Or.inl rfl
      · exact Or.inl rfl
      · exact Or.inl rfl
      · exact Or.inr rfl
      · exact Or.inr rfl
    rcases hsel with hsel | hsel
    · refine ⟨WATERMELON_PRICES, hsel, ?_⟩
      intro pt infos
      cases pt <;>
        first
          | exact ⟨_, _, Or.inl rfl, Or.inl rfl, rfl⟩
          | exact ⟨_, _, Or.inr ⟨rfl, rfl⟩, Or.inr ⟨rfl, rfl⟩, rfl⟩
    · refine ⟨TEEP_PRICES, hsel, ?_⟩
      intro pt infos
      cases pt <;>
        first
          | exact ⟨_, _, Or.inl rfl, Or.inl rfl, rfl⟩
          | exact ⟨_, _, Or.inr ⟨rfl, rfl⟩, Or.inr ⟨rfl, rfl⟩, rfl⟩
  · intro flag
    exact ⟨TEEP_PRICES, rfl, by decide, by decide, by decide, by decide⟩

/-- Witness for C2 at network version 25 with the feature off. -/
theorem C2_on_verify_aggregate_seals_witness :
    (21 ≤ 25 ∧ 25 ≤ 26) ∧
    (∃ pl, price_list_by_network_version false 25 = some pl ∧
      ∀ (pt : RegisteredSealProof) (infos : List AggregateSealVerifyInfo),
        ∃ per step,
          (pl.verify_aggregate_seal_per.lookup pt = some per ∨
            (pl.verify_aggregate_seal_per.lookup pt = none ∧
              pl.verify_aggregate_seal_per.lookup
                RegisteredSealProof.StackedDRG32GiBV1P1 = some per)) ∧
          (pl.verify_aggregate_seal_steps.lookup pt = some step ∨
            (pl.verify_aggregate_seal_steps.lookup pt = none ∧
              pl.verify_aggregate_seal_steps.lookup
                RegisteredSealProof.StackedDRG32GiBV1P1 = some step)) ∧
          pl.on_verify_aggregate_seals ⟨pt, infos⟩ =
            some (GasCharge.new
              (per * infos.length + step.lookup infos.length) Gas.zero)) :=
  ⟨⟨by omega, by omega⟩,
    C2_on_verify_aggregate_seals.1 false 25 (by omega) (by omega)⟩

theorem parse_varint_encode (n : Nat) (rest : List Nat) :
    parse_varint (encode_varint n ++ rest) = some (n, rest) := by
  induction n using Nat.strong_induction_on with
  | _ n ih =>
    rw [encode_varint]
    by_cases h : n < 128
    · rw [dif_pos h]
      simp [parse_varint, h]
    · rw [dif_neg h]
      rw [List.cons_append]
      simp only [parse_varint]
      rw [if_neg (by omega)]
      rw [ih (n / 128) (Nat.div_lt_self (by omega) (by omega))]
      have heq : (n % 128 + 128) % 128 + 128 * (n / 128) = n := by omega
      simp [heq]
      omega

theorem encode_varint_length (k n : Nat) (h : n < 2 ^ (7 * (k + 1))) :
    (encode_varint n).length ≤ k + 1 := by
  induction k generalizing n with
  | zero =>
    have h128 : n < 128 := by norm_num at h; omega
    rw [encode_varint, dif_pos h128]
    simp
  | succ k ih =>
    rw [encode_varint]
    by_cases hl : n < 128
    · rw [dif_pos hl]
      simp
    · rw [dif_neg hl]
      simp only [List.length_cons]
      have hpow : (2 : Nat) ^ (7 * (k + 1 + 1)) = 128 * 2 ^ (7 * (k + 1)) := by
        rw [show 7 * (k + 1 + 1) = 7 + 7 * (k + 1) by ring, pow_add]
        norm_num
      have hdiv : n / 128 < 2 ^ (7 * (k + 1)) := by omega
      have := ih (n / 128) hdiv
      omega

theorem parse_cid_encode (c : Cid) (rest : List Nat) (hwf : c.wf) :
    parse_cid (encode_cid c ++ rest) = some (c, (encode_cid c).length) := by
  obtain ⟨h1, h2, h3, h4, h5⟩ := hwf
  simp only [encode_cid, List.append_assoc]
  simp only [parse_cid, parse_varint_encode]
  rw [if_pos ⟨h4, by simp⟩]
  simp only [Option.some.injEq, Prod.mk.injEq]
  constructor
  · have : (c.digest ++ rest).take c.digest.length = c.digest := List.take_left _ _
    rw [this]
  · simp only [List.length_append]
    omega

/-- Claim C9: reading a CID from actor memory succeeds and returns the parsed
CID for every valid CID whose canonical encoding lies at the offset, even when
it runs to the very end of memory and with no pre-known length, consuming at
most MAX_CID_LEN = 100 bytes; an offset past the end of memory or malformed
CID bytes produce an IllegalArgument syscall error, and no input produces
anything but success or IllegalArgument. -/
theorem C9_read_cid :
    (∀ (pre rest : List Nat) (c : Cid), c.wf →
      Memory.read_cid ⟨pre ++ encode_cid c ++ rest⟩ pre.length = .ok c ∧
      parse_cid ((pre ++ encode_cid c ++ rest).drop pre.length) =
        some (c, (encode_cid c).length) ∧
      (encode_cid c).length ≤ MAX_CID_LEN) ∧
    (∀ (mem : Memory) (offset : Nat), mem.data.length < offset →
      mem.read_cid offset = .error .IllegalArgument) ∧
    (∀ (mem : Memory) (offset : Nat),
      (∃ c, mem.read_cid offset = .ok c) ∨
      mem.read_cid offset = .error .IllegalArgument) := by
  refine ⟨?_, ?_, ?_⟩
  · intro pre rest c hwf
    have hdrop : (pre ++ encode_cid c ++ rest).drop pre.length
        = encode_cid c ++ rest := by
      rw [List.append_assoc, List.drop_left]
    have hp : parse_cid ((pre ++ encode_cid c ++ rest).drop pre.length)
        = some (c, (encode_cid c).length) := by
      rw [hdrop]
      exact parse_cid_encode c rest hwf
    have hlen : (encode_cid c).length ≤ MAX_CID_LEN := by
      obtain ⟨h1, h2, h3, h4, h5⟩ := hwf
      have e1 := encode_varint_length 8 c.version (by norm_num at h1 ⊢; omega)
      have e2 := encode_varint_length 8 c.codec (by norm_num at h2 ⊢; omega)
      have e3 := encode_varint_length 8 c.hash_code (by norm_num at h3 ⊢; omega)
      have e4 := encode_varint_length 0 c.digest.length (by norm_num; omega)
      simp only [encode_cid, List.length_append, MAX_CID_LEN]
      omega
    refine ⟨?_, hp, hlen⟩
    simp only [Memory.read_cid]
    rw [if_pos (by simp only [List.length_append]; omega)]
    rw [hp]
  · intro mem offset h
    simp only [Memory.read_cid]
    rw [if_neg (by omega)]
  · intro mem offset
    simp only [Memory.read_cid]
    by_cases h : offset ≤ mem.data.length
    · rw [if_pos h]
      cases hp : parse_cid (mem.data.drop offset) with
      | none => exact Or.inr rfl
      | some p =>
        obtain ⟨c0, k⟩ := p
        exact Or.inl ⟨c0, rfl⟩
    · rw [if_neg h]
      exact Or.inr rfl

/-- Witness for C9 at a concrete valid CID whose encoding is the whole
memory. -/
theorem C9_read_cid_witness :
    Cid.wf ⟨1, 85, 18, [7, 9]⟩ ∧
    Memory.read_cid ⟨[] ++ encode_cid ⟨1, 85, 18, [7, 9]⟩ ++ []⟩
        (List.length ([] : List Nat)) = .ok ⟨1, 85, 18, [7, 9]⟩ :=
  ⟨by decide, (C9_read_cid.1 [] [] ⟨1, 85, 18, [7, 9]⟩ (by decide)).1⟩

/-- Claim C1 (code bug): evaluated on a = an AMT of bit width 3 holding the
single entry 42 at index 0 and b = the empty AMT of bit width 3, diff(a, b)
takes the remove_all path and returns a Remove change whose before field is
None and whose after field holds the removed value, although a prior value
existed; the diff_leaves path of the same file, exercised by replacing b with
an AMT holding 7 at index 1, puts the prior value in before and None in after
for its Remove change, as the claim describes. -/
theorem C1_diff_remove_all_divergence :
    Amt.diff (V := Nat)
        ⟨3, 0, 1, Node.leaf [some 42, none, none, none, none, none, none, none],
          fun _ => none⟩
        ⟨3, 0, 0, Node.leaf [none, none, none, none, none, none, none, none],
          fun _ => none⟩ =
      .ok [⟨ChangeType.Remove, 0, none, some 42⟩] ∧
    Amt.diff (V := Nat)
        ⟨3, 0, 1, Node.leaf [some 42, none, none, none, none, none, none, none],
          fun _ => none⟩
        ⟨3, 0, 1, Node.leaf [none, some 7, none, none, none, none, none, none],
          fun _ => none⟩ =
      .ok [⟨ChangeType.Remove, 0, some 42, none⟩,
        ⟨ChangeType.Add, 1, none, some 7⟩] := by
  constructor
  · rfl
  · simp only [Amt.diff]
    norm_num
    rw [diff_node]
    norm_num [diff_leaves, List.enum, List.enumFrom]
    all_goals intros
    all_goals first
      | rfl
      | (rename_i h; exact Node.noConfusion h)

end RefFvm
